import Mathlib

/-!
Shallow embedding of the tbd-suite training glue code.

Two independent pipelines are modelled:

* the ResNet-50 image-classification `Task` abstraction
  (`include/core/base_task.py`) and its driver helpers
  (`src/resnet_ctl_imagenet_main.py`), in namespace `Resnet`;
* the DeepSpeech2 speech-recognition training script
  (`pytorch/training/training.py`), in namespace `DeepSpeech`.

Machine floats that only flow through branches and exact arithmetic are
modelled as rationals; Python `None`-able values as `Option`; raised
exceptions as `Except.error`.
-/

namespace Resnet

/-- A tensor, modelled elementwise as a map from an index type to rationals. -/
def Tensor (ι : Type) : Type := ι → Rat

/-- `tf.add_n`: elementwise sum of a list of tensors. -/
def add_n {ι : Type} (ts : List (Tensor ι)) : Tensor ι :=
  fun i => (ts.map (fun t => t i)).sum

/-- The `Task` base class: `__init__` stores the `TaskConfig` object in
`self._task_config` (base_task.py line 41). -/
structure Task (Config : Type) where
  _task_config : Config

/-- `Task.__init__(self, params)`. -/
def Task.init {Config : Type} (params : Config) : Task Config :=
  { _task_config := params }

/-- The `task_config` property (base_task.py lines 43-45). -/
def Task.task_config {Config : Type} (t : Task Config) : Config :=
  t._task_config

/-- Result of a successful `compile_model`: the model together with the
step functions that were attached to it. -/
structure CompiledModel (M L T V : Type) where
  model : M
  loss : Option L
  train_step : Option T
  validation_step : Option V

/-- `Task.compile_model` (base_task.py lines 68-101): raises `ValueError`
when `bool(loss is None) == bool(train_step is None)`, otherwise compiles
the model and attaches the optional step functions. -/
def Task.compile_model {Config M L T V : Type} (_t : Task Config) (model : M)
    (loss : Option L) (train_step : Option T) (validation_step : Option V) :
    Except String (CompiledModel M L T V) :=
  if loss.isNone == train_step.isNone then
    Except.error "`loss` and `train_step` should be exclusive to each other."
  else
    Except.ok { model := model, loss := loss, train_step := train_step,
                validation_step := validation_step }

/-- `Task.build_losses` (base_task.py lines 119-137): deletes
`model_outputs` and `labels`, replaces a `None` `aux_losses` with the
single constant-zero tensor, and returns `tf.add_n` of the list. -/
def Task.build_losses {Config α β ι : Type} (_t : Task Config) (labels : α)
    (model_outputs : β) (aux_losses : Option (List (Tensor ι))) : Tensor ι :=
  let losses : List (Tensor ι) :=
    match aux_losses with
    | none => [fun _ => (0 : Rat)]
    | some l => l
  add_n losses

/-- A Python value that may or may not be a tuple: either an opaque scalar
object or a tuple of such values. -/
inductive PyObj (α : Type) where
  | scalar (x : α)
  | tuple (xs : List (PyObj α))

/-- The input destructuring at the top of `Task.train_step`
(base_task.py lines 184-187): a 2-tuple splits into `(features, labels)`,
anything else is used as both. -/
def train_step_inputs {α : Type} (inputs : PyObj α) : PyObj α × PyObj α :=
  match inputs with
  | PyObj.tuple [a, b] => (a, b)
  | x => (x, x)

/-- The identical input destructuring at the top of `Task.validation_step`
(base_task.py lines 230-233). -/
def validation_step_inputs {α : Type} (inputs : PyObj α) : PyObj α × PyObj α :=
  match inputs with
  | PyObj.tuple [a, b] => (a, b)
  | x => (x, x)

/-- The dataset sizes `imagenet_preprocessing.NUM_IMAGES`. -/
structure NumImages where
  train : Nat
  validation : Nat

/-- The flags consumed by `get_num_train_iterations`. -/
structure FlagsObj where
  batch_size : Nat
  train_epochs : Nat
  train_steps : Nat

/-- `get_num_train_iterations` (resnet_ctl_imagenet_main.py lines 85-98).
`//` is Nat division; `math.ceil(1.0 * v / b)` is exact ceiling division,
written `(v + b - 1) / b`. The Python truthiness test
`if flags_obj.train_steps:` is `train_steps ≠ 0`. -/
def get_num_train_iterations (numImages : NumImages) (flags_obj : FlagsObj) :
    Nat × Nat × Nat :=
  let train_steps := numImages.train / flags_obj.batch_size
  let train_epochs := flags_obj.train_epochs
  let st : Nat × Nat :=
    if flags_obj.train_steps ≠ 0 then
      (min flags_obj.train_steps train_steps, 1)
    else
      (train_steps, train_epochs)
  let eval_steps :=
    (numImages.validation + flags_obj.batch_size - 1) / flags_obj.batch_size
  (st.1, st.2, eval_steps)

/-- `_steps_to_run` (resnet_ctl_imagenet_main.py lines 101-107). -/
def _steps_to_run (steps_in_current_epoch steps_per_epoch steps_per_loop : Int) :
    Except String Int :=
  if steps_per_loop ≤ 0 then
    Except.error "steps_per_loop should be positive integer."
  else if steps_per_loop = 1 then
    Except.ok steps_per_loop
  else
    Except.ok (min steps_per_loop (steps_per_epoch - steps_in_current_epoch))

end Resnet

namespace Resnet

/-- C9: `Task.__init__` stores the parameter object unchanged and the
`task_config` property returns exactly the object that was passed in. -/
theorem task_config_round_trip {Config : Type} (params : Config) :
    (Task.init params).task_config = params := rfl

/-- C2: `compile_model` raises its `ValueError` exactly when `loss` and
`train_step` are both `None` or both non-`None`; with exactly one of them
supplied it succeeds. -/
theorem compile_model_error_iff {Config M L T V : Type} (t : Task Config)
    (model : M) (loss : Option L) (train_step : Option T)
    (validation_step : Option V) :
    (∃ e, t.compile_model model loss train_step validation_step =
        Except.error e) ↔
      ((loss = none ∧ train_step = none) ∨
        (loss ≠ none ∧ train_step ≠ none)) := by
  cases loss <;> cases train_step <;>
    simp [Task.compile_model]

/-- C3: `_steps_to_run` raises a `ValueError` for every
`steps_per_loop ≤ 0`; returns `1` when `steps_per_loop = 1`; and for
`steps_per_loop > 1` returns `min steps_per_loop (steps_per_epoch -
steps_in_current_epoch)`. -/
theorem steps_to_run_spec (sic spe spl : Int) :
    (spl ≤ 0 →
      _steps_to_run sic spe spl =
        Except.error "steps_per_loop should be positive integer.") ∧
    (spl = 1 → _steps_to_run sic spe spl = Except.ok 1) ∧
    (1 < spl →
      _steps_to_run sic spe spl = Except.ok (min spl (spe - sic))) := by
  refine ⟨fun h => ?_, fun h => ?_, fun h => ?_⟩
  · simp [_steps_to_run, h]
  · subst h; simp [_steps_to_run]
  · have h0 : ¬ spl ≤ 0 := by omega
    have h1 : spl ≠ 1 := by omega
    simp [_steps_to_run, h0, h1]

/-- C4: `get_num_train_iterations` with 1000 training images, batch size
10, 5 train epochs and `train_steps = 0` returns `(100, 5, eval_steps)`;
and for every nonzero `train_steps` below the computed
`NUM_IMAGES.train // batch_size` it returns `(train_steps, 1, eval_steps)`,
where `eval_steps` is the ceiling of `NUM_IMAGES.validation / batch_size`. -/
theorem get_num_train_iterations_spec (numTrain numVal batch epochs ts : Nat) :
    (get_num_train_iterations ⟨1000, numVal⟩ ⟨10, 5, 0⟩ =
      (100, 5, (numVal + 9) / 10)) ∧
    (ts ≠ 0 → ts < numTrain / batch →
      get_num_train_iterations ⟨numTrain, numVal⟩ ⟨batch, epochs, ts⟩ =
        (ts, 1, (numVal + batch - 1) / batch)) := by
  constructor
  · show (1000 / 10, 5, (numVal + 10 - 1) / 10) = (100, 5, (numVal + 9) / 10)
    norm_num
  · intro hts hlt
    have hmin : min ts (numTrain / batch) = ts := min_eq_left (Nat.le_of_lt hlt)
    simp [get_num_train_iterations, hts, hmin]

/-- C5: `build_losses` ignores labels and model outputs; with
`aux_losses = None` it returns the zero tensor, and with a non-empty list
of loss tensors it returns their elementwise sum. -/
theorem build_losses_spec {Config α β ι : Type} (t : Task Config)
    (labels : α) (model_outputs : β) :
    (t.build_losses labels model_outputs (none : Option (List (Tensor ι))) =
      fun _ => (0 : Rat)) ∧
    (∀ ts : List (Tensor ι), ts ≠ [] →
      t.build_losses labels model_outputs (some ts) =
        fun i => (ts.map (fun t0 => t0 i)).sum) ∧
    (∀ {α2 β2 : Type} (l2 : α2) (m2 : β2)
        (aux : Option (List (Tensor ι))),
      t.build_losses labels model_outputs aux = t.build_losses l2 m2 aux) := by
  refine ⟨?_, fun ts _ => rfl, fun l2 m2 aux => rfl⟩
  funext i
  simp [Task.build_losses, add_n]

/-- C10: in both `train_step` and `validation_step`, an input that is not
a tuple of length exactly 2 is used as both features and labels, and a
2-tuple is destructured into `(features, labels)`. -/
theorem step_inputs_split {α : Type} (inputs : PyObj α) :
    ((∀ a b : PyObj α, inputs ≠ PyObj.tuple [a, b]) →
      train_step_inputs inputs = (inputs, inputs) ∧
      validation_step_inputs inputs = (inputs, inputs)) ∧
    (∀ a b : PyObj α,
      train_step_inputs (PyObj.tuple [a, b]) = (a, b) ∧
      validation_step_inputs (PyObj.tuple [a, b]) = (a, b)) := by
  constructor
  · intro h
    cases inputs with
    | scalar x => exact ⟨rfl, rfl⟩
    | tuple xs =>
      match xs with
      | [] => exact ⟨rfl, rfl⟩
      | [a] => exact ⟨rfl, rfl⟩
      | [a, b] => exact absurd rfl (h a b)
      | a :: b :: c :: rest => exact ⟨rfl, rfl⟩
  · intro a b
    exact ⟨rfl, rfl⟩

end Resnet

namespace DeepSpeech

/-- The fields of a loaded checkpoint dictionary that the resume logic
reads; a missing key is `none` (training.py lines 72-78 use
`package.get` with defaults). -/
structure Package where
  epoch : Option Int
  iteration : Option Int

/-- The resume-counter computation of `main` when `continue_from` is set
(training.py lines 72-82): `start_epoch` is the stored epoch (default 1) minus one;
a missing `iteration` bumps `start_epoch` and zeroes `start_iter`, a
present one sets `start_iter` to it plus one; afterwards a
`--start_epoch` flag other than `-1` overrides `start_epoch`. Returns
`(start_epoch, start_iter)`. -/
def resume_counters (package : Package) (start_epoch_flag : Int) : Int × Int :=
  let start_epoch := package.epoch.getD 1 - 1
  let si : Int × Int :=
    match package.iteration with
    | none => (start_epoch + 1, 0)
    | some it => (start_epoch, it + 1)
  let start_epoch := if start_epoch_flag ≠ -1 then start_epoch_flag else si.1
  (start_epoch, si.2)

/-- A Python float as the batch loop observes it: a finite value, one of
the two infinities, or NaN.  Only equality tests against `inf`/`-inf`
are performed on it in this code. -/
inductive PyFloat where
  | finite (q : Rat)
  | posInf
  | negInf
  | nan
deriving DecidableEq

/-- The inf-loss guard of the batch loop (training.py lines 132-138):
`loss_value = 0` with a printed warning when the summed loss compares
equal to `inf` or `-inf`, otherwise `loss_value = loss.data[0]`. Returns
`(loss_value, warning_printed)`. -/
def loss_value_of (loss_sum : PyFloat) (loss_data0 : Rat) : Rat × Bool :=
  if loss_sum = PyFloat.posInf ∨ loss_sum = PyFloat.negInf then
    (0, true)
  else
    (loss_data0, false)

/-- The accumulation that follows the guard (training.py lines 140-141):
`avg_loss += loss_value` and `losses.update(loss_value, ...)`. Returns
the new `avg_loss`, the value handed to the losses meter, and whether
the warning was printed. -/
def batch_loss_update (avg_loss : Rat) (loss_sum : PyFloat)
    (loss_data0 : Rat) : Rat × Rat × Bool :=
  let lv := loss_value_of loss_sum loss_data0
  (avg_loss + lv.1, lv.1, lv.2)

/-- The best-WER update of the epoch loop (training.py lines 200-209):
`best_wer = wer` when `best_wer` is `None` or `best_wer > wer`, else it
keeps its value (the model save on that path does not affect control
flow). -/
def update_best (best_wer : Option Rat) (wer : Rat) : Rat :=
  match best_wer with
  | none => wer
  | some b => if b > wer then wer else b

/-- The epoch loop of `main` (training.py lines 104-216) reduced to its
control flow: `wer_of e` is the validation WER of epoch `e` (evaluation
assumed to succeed each epoch), `best_wer` the running best, and the
loop body ends with `if params.exit_at_acc and (best_wer <= args.acc):
break`.  Returns the list of epoch indices the loop executes; the
remaining-epoch count decreases structurally. -/
def run_epochs (exit_at_acc : Bool) (acc : Rat) (wer_of : Nat → Rat) :
    Option Rat → Nat → Nat → List Nat
  | _, _, 0 => []
  | best_wer, epoch, r + 1 =>
    epoch ::
      (if exit_at_acc ∧ update_best best_wer (wer_of epoch) ≤ acc then []
       else run_epochs exit_at_acc acc wer_of
         (some (update_best best_wer (wer_of epoch))) (epoch + 1) r)

/-- The full epoch loop `for epoch in range(0, params.epochs)` of a
fresh (non-resumed) run, with `best_wer` starting at `None`. -/
def main_loop (exit_at_acc : Bool) (acc : Rat) (wer_of : Nat → Rat)
    (epochs : Nat) : List Nat :=
  run_epochs exit_at_acc acc wer_of none 0 epochs

/-- The locals of the epoch loop that the validation step touches:
the `wer`/`cer` variables (`none` while still unbound) and the
epoch-indexed result tensors. -/
structure EvalLoopState where
  wer : Option Rat
  cer : Option Rat
  wer_results : Nat → Rat
  cer_results : Nat → Rat

/-- The per-epoch validation-and-record fragment (training.py lines
175-183): `eval_model` either returns `(wer, cer)` or raises a
`RuntimeError`, which is caught with a printed warning and leaves `wer`
and `cer` as they were; then `wer_results[epoch]` and
`cer_results[epoch]` are assigned from those variables.  Reading a
still-unbound variable raises an uncaught `UnboundLocalError`, modelled
as `none`; otherwise the result is the new state and whether the warning
was printed. -/
def epoch_eval_record (st : EvalLoopState) (epoch : Nat)
    (eval_result : Except Unit (Rat × Rat)) : Option (EvalLoopState × Bool) :=
  let next : Option Rat × Option Rat × Bool :=
    match eval_result with
    | Except.ok wc => (some wc.1, some wc.2, false)
    | Except.error _ => (st.wer, st.cer, true)
  match next with
  | (some w, some c, warned) =>
    some ({ wer := some w, cer := some c,
            wer_results := fun j => if j = epoch then w else st.wer_results j,
            cer_results := fun j => if j = epoch then c else st.cer_results j },
          warned)
  | _ => none

end DeepSpeech

namespace DeepSpeech

/-- C1: with the `--start_epoch` flag at its default `-1`, a checkpoint
without an `iteration` key resumes at `(epoch, 0)` (the stored epoch
minus one, bumped by one), and one with an `iteration` key resumes at
`(epoch - 1, iteration + 1)`. -/
theorem resume_counters_spec (e it : Int) :
    resume_counters { epoch := some e, iteration := none } (-1) = (e, 0) ∧
    resume_counters { epoch := some e, iteration := some it } (-1) =
      (e - 1, it + 1) := by
  constructor <;> simp [resume_counters]

/-- C7: a summed batch loss equal to `inf` or `-inf` accumulates `0`
into `avg_loss` and the losses meter and prints the warning; a finite
summed loss accumulates the actual loss value with no warning. -/
theorem inf_loss_guard_spec (avg d : Rat) :
    (batch_loss_update avg PyFloat.posInf d = (avg, 0, true)) ∧
    (batch_loss_update avg PyFloat.negInf d = (avg, 0, true)) ∧
    (∀ q : Rat,
      batch_loss_update avg (PyFloat.finite q) d = (avg + d, d, false)) := by
  refine ⟨?_, ?_, fun q => ?_⟩ <;>
    simp [batch_loss_update, loss_value_of]

/-- C8: when `eval_model` raises a `RuntimeError` and `wer`/`cer` hold
values from an earlier epoch, the failure is caught (the step completes
rather than propagating), the warning is printed, and the stale values
are recorded into `wer_results[epoch]` and `cer_results[epoch]`. -/
theorem eval_failure_records_stale (st : EvalLoopState) (epoch : Nat)
    (w0 c0 : Rat) (hw : st.wer = some w0) (hc : st.cer = some c0) :
    ∃ st', epoch_eval_record st epoch (Except.error ()) = some (st', true) ∧
      st'.wer_results epoch = w0 ∧ st'.cer_results epoch = c0 ∧
      st'.wer = some w0 ∧ st'.cer = some c0 := by
  refine ⟨{ wer := some w0, cer := some c0,
            wer_results := fun j => if j = epoch then w0 else st.wer_results j,
            cer_results := fun j => if j = epoch then c0 else st.cer_results j },
          ?_, by simp, by simp, rfl, rfl⟩
  simp [epoch_eval_record, hw, hc]

/-- A new WER at most the target keeps the updated best at most the
target, provided the previous best (if any) was above it. -/
theorem update_best_le_of_le (acc wer : Rat) (best : Option Rat)
    (hw : wer ≤ acc) (hb : ∀ b, best = some b → acc < b) :
    update_best best wer ≤ acc := by
  cases best with
  | none => exact hw
  | some b =>
    have hab := hb b rfl
    have hgt : b > wer := lt_of_le_of_lt hw hab
    simpa [update_best, hgt] using hw

/-- A new WER above the target keeps the updated best above the target,
provided the previous best (if any) was above it. -/
theorem update_best_gt_of_gt (acc wer : Rat) (best : Option Rat)
    (hw : acc < wer) (hb : ∀ b, best = some b → acc < b) :
    acc < update_best best wer := by
  cases best with
  | none => exact hw
  | some b =>
    have hab := hb b rfl
    by_cases hgt : b > wer
    · simpa [update_best, hgt] using hw
    · simpa [update_best, hgt] using hab

/-- With `exit_at_acc` false the break is never taken: the loop visits
every remaining epoch. -/
theorem run_epochs_no_exit (acc : Rat) (wer_of : Nat → Rat) :
    ∀ (r epoch : Nat) (best : Option Rat),
      run_epochs false acc wer_of best epoch r = List.range' epoch r := by
  intro r
  induction r with
  | zero => intro epoch best; rfl
  | succ n ih =>
    intro epoch best
    rw [run_epochs, if_neg (by simp), ih (epoch + 1) _,
      List.range'_succ epoch n 1]

/-- With `exit_at_acc` true but every remaining WER above the target,
the loop visits every remaining epoch. -/
theorem run_epochs_exit_all_miss (acc : Rat) (wer_of : Nat → Rat) :
    ∀ (r epoch : Nat) (best : Option Rat),
      (∀ b, best = some b → acc < b) →
      (∀ j, j < r → acc < wer_of (epoch + j)) →
      run_epochs true acc wer_of best epoch r = List.range' epoch r := by
  intro r
  induction r with
  | zero => intro epoch best _ _; rfl
  | succ n ih =>
    intro epoch best hbest hmiss
    have h0 : acc < wer_of epoch := by simpa using hmiss 0 (Nat.succ_pos n)
    have hbest' : acc < update_best best (wer_of epoch) :=
      update_best_gt_of_gt acc (wer_of epoch) best h0 hbest
    have hrec :
        run_epochs true acc wer_of (some (update_best best (wer_of epoch)))
          (epoch + 1) n = List.range' (epoch + 1) n := by
      refine ih (epoch + 1) _ (fun b hb => ?_) (fun j hj => ?_)
      · injection hb with hb'
        exact hb' ▸ hbest'
      · have h1 := hmiss (j + 1) (by omega)
        have harg : epoch + (j + 1) = epoch + 1 + j := by omega
        exact harg ▸ h1
    rw [run_epochs, if_neg (fun h => absurd h.2 (not_le.mpr hbest')), hrec,
      List.range'_succ epoch n 1]

/-- With `exit_at_acc` true and epoch `epoch + k` the first remaining
epoch whose WER meets the target, the loop visits exactly the epochs up
to and including it. -/
theorem run_epochs_exit_first_hit (acc : Rat) (wer_of : Nat → Rat) :
    ∀ (r k epoch : Nat) (best : Option Rat),
      (∀ b, best = some b → acc < b) →
      k < r →
      wer_of (epoch + k) ≤ acc →
      (∀ j, j < k → acc < wer_of (epoch + j)) →
      run_epochs true acc wer_of best epoch r = List.range' epoch (k + 1) := by
  intro r
  induction r with
  | zero => intro k epoch best _ hk; exact absurd hk (Nat.not_lt_zero k)
  | succ n ih =>
    intro k epoch best hbest hk hhit hmiss
    cases k with
    | zero =>
      have h0 : wer_of epoch ≤ acc := by simpa using hhit
      have hb := update_best_le_of_le acc (wer_of epoch) best h0 hbest
      rw [run_epochs, if_pos ⟨rfl, hb⟩, List.range'_succ epoch 0 1]
      rfl
    | succ k' =>
      have h0 : acc < wer_of epoch := by
        simpa using hmiss 0 (Nat.succ_pos k')
      have hbest' : acc < update_best best (wer_of epoch) :=
        update_best_gt_of_gt acc (wer_of epoch) best h0 hbest
      have hrec :
          run_epochs true acc wer_of (some (update_best best (wer_of epoch)))
            (epoch + 1) n = List.range' (epoch + 1) (k' + 1) := by
        refine ih k' (epoch + 1) _ (fun b hb => ?_) (by omega) ?_
          (fun j hj => ?_)
        · injection hb with hb'
          exact hb' ▸ hbest'
        · have harg : epoch + 1 + k' = epoch + (k' + 1) := by omega
          rw [harg]; exact hhit
        · have h1 := hmiss (j + 1) (by omega)
          have harg : epoch + (j + 1) = epoch + 1 + j := by omega
          exact harg ▸ h1
      rw [run_epochs, if_neg (fun h => absurd h.2 (not_le.mpr hbest')), hrec,
        List.range'_succ epoch (k' + 1) 1]

/-- C6 (amended): the epoch loop runs all `params.epochs` epochs when
`params.exit_at_acc` is unset; when it is set, the loop stops after the
first epoch whose (best) WER meets `args.acc`, and otherwise still runs
all epochs. -/
theorem main_loop_termination (exit_at_acc : Bool) (acc : Rat)
    (wer_of : Nat → Rat) (epochs : Nat) :
    (exit_at_acc = false →
      main_loop exit_at_acc acc wer_of epochs = List.range epochs) ∧
    (exit_at_acc = true →
      (∀ j, j < epochs → acc < wer_of j) →
      main_loop exit_at_acc acc wer_of epochs = List.range epochs) ∧
    (exit_at_acc = true →
      ∀ k, k < epochs → wer_of k ≤ acc →
        (∀ j, j < k → acc < wer_of j) →
        main_loop exit_at_acc acc wer_of epochs = List.range (k + 1)) := by
  refine ⟨fun h => ?_, fun h hmiss => ?_, fun h k hk hhit hmiss => ?_⟩
  · subst h
    rw [main_loop, run_epochs_no_exit acc wer_of epochs 0 none,
      List.range_eq_range' epochs]
  · subst h
    rw [main_loop, List.range_eq_range' epochs]
    exact run_epochs_exit_all_miss acc wer_of epochs 0 none
      (fun b hb => by simp at hb) (fun j hj => by simpa using hmiss j hj)
  · subst h
    rw [main_loop, List.range_eq_range' (k + 1)]
    exact run_epochs_exit_first_hit acc wer_of epochs k 0 none
      (fun b hb => by simp at hb) hk (by simpa using hhit)
      (fun j hj => by simpa using hmiss j hj)

/-- C6 counterexample: with `params.exit_at_acc` false the loop runs a
second epoch even though the target WER (`acc = 1`) was already met
after epoch 0 (the WER of every epoch is 0), so reaching the target does not
by itself terminate training. -/
theorem main_loop_no_exit_counterexample :
    (fun _ : Nat => (0 : Rat)) 0 ≤ 1 ∧
    main_loop false 1 (fun _ : Nat => (0 : Rat)) 2 = [0, 1] := by
  constructor
  · norm_num
  · rw [main_loop, run_epochs_no_exit 1 (fun _ : Nat => (0 : Rat)) 2 0 none]
    rfl

/-- Witness for C8 at a concrete state whose previous validation left
`wer = 5` and `cer = 7`. -/
theorem eval_failure_records_stale_witness :
    ∃ st', epoch_eval_record
        { wer := some 5, cer := some 7,
          wer_results := fun _ => 0, cer_results := fun _ => 0 } 3
        (Except.error ()) = some (st', true) ∧
      st'.wer_results 3 = 5 ∧ st'.cer_results 3 = 7 ∧
      st'.wer = some 5 ∧ st'.cer = some 7 :=
  eval_failure_records_stale
    { wer := some 5, cer := some 7,
      wer_results := fun _ => 0, cer_results := fun _ => 0 } 3 5 7 rfl rfl

end DeepSpeech
